import Mathlib

/-!
Shallow embedding of the model-lifecycle code of this repository
(src/models/predict.py, src/models/train.py, src/models/train_mlflow.py)
and proofs about the specified properties.

Conventions of the embedding:
* Python `None`-able attributes become `Option` fields.
* Python exceptions become explicit error values (`PredErr`, `EvalErr`, ...);
  a method that can raise returns the (possibly unchanged) state together
  with an optional error, mirroring the fact that in the source all field
  assignments happen only after every fallible step has succeeded.
* Floats are modelled as `Rat` (the metric formulas are exact on rationals).
* The fitted scikit-learn estimator is modelled as a record of the
  hyperparameters, the seed actually consumed by the fit, and the training
  data: `RandomForestClassifier.fit` is a deterministic function of these,
  with the global RNG draw (`ambient`) standing in for the nondeterminism
  used when `random_state` is absent.
-/

/-- Feature record passed to `ModelPredictor.predict` (a Python dict of
feature name to value). -/
def FeatureRecord := List (String × Rat)

/-- A loaded model handle as used by the predictor: `predict` maps a one-row
table to labels, `predict_proba` (when the estimator has it) maps it to
per-class probability rows. -/
structure ServedModel where
  predict : FeatureRecord → List Int
  proba : Option (FeatureRecord → List (List Rat))

/-- Shape returned by the tracking client for a model version
(`get_latest_production_model` / `get_model_by_version`), from
src/models/predict.py and the tracking-client contract. -/
structure TrackedModelInfo where
  model_uri : String
  version : String
  run_id : String
  tags : List (String × String)
  metrics : List (String × Rat)
  params : List (String × String)
  stage : String

/-- The injected MLflow client, modelled by its observable behaviour:
each operation is a (partial, via `Option`) function. `load_model`
returning `none` models a raising artifact download. -/
structure MlflowClient where
  get_latest_production_model : Option TrackedModelInfo
  get_model_by_version : String → Option TrackedModelInfo
  load_model : String → Option ServedModel

/-- State of `ModelPredictor` (src/models/predict.py, `__init__`). -/
structure PredictorState where
  mlflow_client : Option MlflowClient
  model : Option ServedModel
  current_version : Option String
  current_run_id : Option String
  model_metadata : Option TrackedModelInfo

/-- Errors raised by `ModelPredictor` methods.  The source raises
`ValueError` with distinct messages; the spec's error taxonomy names them
`NotFoundError` (version/production resolution failed) and `NotLoadedError`
(an operation needs a loaded model). -/
inductive PredErr where
  | clientNotInitialized
  | noProductionModel
  | versionNotFound (version : String)
  | loadModelFailed
  | notLoaded
  deriving DecidableEq, Repr

/-- `ModelPredictor.__init__`: every model-related field starts as `None`. -/
def ModelPredictor.init (client : Option MlflowClient) : PredictorState :=
  { mlflow_client := client
    model := none
    current_version := none
    current_run_id := none
    model_metadata := none }

/-- `ModelPredictor.load_model_version`.  Returns the state after the call
together with the raised error, if any.  In the source the four field
assignments execute only after `get_model_by_version` returned a non-null
info and `load_model` returned, so on any error the state is untouched. -/
def load_model_version_run (s : PredictorState) (version : String) :
    PredictorState × Option PredErr :=
  match s.mlflow_client with
  | none => (s, some .clientNotInitialized)
  | some c =>
    match c.get_model_by_version version with
    | none => (s, some (.versionNotFound version))
    | some info =>
      match c.load_model info.model_uri with
      | none => (s, some .loadModelFailed)
      | some m =>
        ({ s with
            model := some m
            current_version := some info.version
            current_run_id := some info.run_id
            model_metadata := some info }, none)

/-- `ModelPredictor.load_production_model`, same shape as
`load_model_version_run`. -/
def load_production_model_run (s : PredictorState) :
    PredictorState × Option PredErr :=
  match s.mlflow_client with
  | none => (s, some .clientNotInitialized)
  | some c =>
    match c.get_latest_production_model with
    | none => (s, some .noProductionModel)
    | some info =>
      match c.load_model info.model_uri with
      | none => (s, some .loadModelFailed)
      | some m =>
        ({ s with
            model := some m
            current_version := some info.version
            current_run_id := some info.run_id
            model_metadata := some info }, none)

/-- Python truthiness of the `model_version` argument: `None` and the empty
string are falsy, any other string is truthy. -/
def versionTruthy : Option String → Bool
  | none => false
  | some v => v ≠ ""

/-- Result dictionary of `ModelPredictor.predict`. -/
structure PredictResult where
  prediction : List Int
  model_version : Option String
  model_run_id : Option String
  confidence : Option Rat
  deriving DecidableEq, Repr

/-- Maximum entry of a probability matrix (`np.max(proba)` flattens). -/
def probaMax (rows : List (List Rat)) : Rat :=
  (rows.foldr (· ++ ·) []).foldr max 0

/-- Outcome of one `ModelPredictor.predict` call: final state, result or
error, and how many `load_model_version` calls the call performed. -/
structure PredictOutcome where
  state : PredictorState
  result : Except PredErr PredictResult
  loadCalls : Nat

/-- Body of `ModelPredictor.predict` (src/models/predict.py lines 57-90)
after the optional reload: require a loaded model; confidence is the max
class probability when `predict_proba` exists, else `None`.  `n` carries
the number of `load_model_version` calls already performed. -/
def predictBody (s' : PredictorState) (features : FeatureRecord)
    (n : Nat) : PredictOutcome :=
  match s'.model with
  | none => ⟨s', .error .notLoaded, n⟩
  | some m =>
    ⟨s', .ok
      { prediction := m.predict features
        model_version := s'.current_version
        model_run_id := s'.current_run_id
        confidence := m.proba.map (fun f => probaMax (f features)) }, n⟩

/-- `ModelPredictor.predict` proper: the conditional reload, then the body
above on the (possibly) updated state. -/
def predict_run (s : PredictorState) (features : FeatureRecord)
    (model_version : Option String) : PredictOutcome :=
  if versionTruthy model_version && (model_version != s.current_version) then
    match load_model_version_run s (model_version.getD "") with
    | (s', some e) => ⟨s', .error e, 1⟩
    | (s', none) => predictBody s' features 1
  else predictBody s features 0

/-- Output dictionary of `ModelPredictor.get_model_info`. -/
structure ModelInfoOut where
  model_name : String
  model_version : Option String
  model_run_id : Option String
  training_date : String
  metrics : List (String × Rat)
  parameters : List (String × String)
  is_production : Bool
  deriving DecidableEq, Repr

/-- `ModelPredictor.get_model_info` (src/models/predict.py lines 92-105).
`envModelName` is `os.getenv("MODEL_NAME", "mlops-model")`.  The method
assigns no field, so the state component of the outcome is the input
state. -/
def get_model_info_run (envModelName : String) (s : PredictorState) :
    PredictorState × Except PredErr ModelInfoOut :=
  match s.model_metadata with
  | none => (s, .error .notLoaded)
  | some md =>
    (s, .ok
      { model_name := envModelName
        model_version := s.current_version
        model_run_id := s.current_run_id
        training_date := ((md.tags.lookup "training_date").getD "Unknown")
        metrics := md.metrics
        parameters := md.params
        is_production := md.stage == "Production" })

/-! ## Training side: classifiers, metrics, evaluation
(src/models/train.py and src/models/train_mlflow.py) -/

/-- A test-time classifier handle as used by `evaluate_model`: `predict`
maps feature rows to labels; `proba` is present exactly when the estimator
has a `predict_proba` attribute and maps feature rows to per-class
probability rows. -/
structure Classifier where
  predict : List (List Rat) → List Int
  proba : Option (List (List Rat) → List (List Rat))

/-- `sklearn.metrics.accuracy_score`: fraction of positions where the
prediction equals the truth. -/
def accuracy_score (yTrue yPred : List Int) : Rat :=
  ((yTrue.zip yPred).countP (fun p => p.1 == p.2) : Rat) / (yTrue.length : Rat)

/-- Per-class precision with `zero_division=0`: among samples predicted as
`c`, the fraction truly `c`; `0` when nothing is predicted as `c`. -/
def precisionClass (yTrue yPred : List Int) (c : Int) : Rat :=
  let predicted := (yTrue.zip yPred).filter (fun p => p.2 == c)
  if predicted.length = 0 then 0
  else ((predicted.countP (fun p => p.1 == c)) : Rat) / (predicted.length : Rat)

/-- Per-class recall with `zero_division=0`: among samples truly `c`, the
fraction predicted as `c`. -/
def recallClass (yTrue yPred : List Int) (c : Int) : Rat :=
  let actual := (yTrue.zip yPred).filter (fun p => p.1 == c)
  if actual.length = 0 then 0
  else ((actual.countP (fun p => p.2 == c)) : Rat) / (actual.length : Rat)

/-- Per-class F1 score: harmonic mean of precision and recall, `0` when
both vanish. -/
def f1Class (yTrue yPred : List Int) (c : Int) : Rat :=
  let p := precisionClass yTrue yPred c
  let r := recallClass yTrue yPred c
  if p + r = 0 then 0 else 2 * p * r / (p + r)

/-- Support-weighted average of a per-class metric over the labels present
in the data (`average='weighted'`). -/
def weightedAvg (yTrue yPred : List Int) (m : List Int → List Int → Int → Rat) : Rat :=
  let labels := (yTrue ++ yPred).dedup
  (labels.map (fun c => ((yTrue.countP (· == c)) : Rat) * m yTrue yPred c)).sum
    / (yTrue.length : Rat)

def precision_score (yTrue yPred : List Int) : Rat :=
  weightedAvg yTrue yPred precisionClass

def recall_score (yTrue yPred : List Int) : Rat :=
  weightedAvg yTrue yPred recallClass

def f1_score (yTrue yPred : List Int) : Rat :=
  weightedAvg yTrue yPred f1Class

/-- Column `1` of a probability matrix (`predict_proba(X)[:, 1]`). -/
def probaCol1 (rows : List (List Rat)) : List Rat :=
  rows.map (fun r => r.getD 1 0)

/-- The larger of the two class labels: with a binary target,
`predict_proba[:, 1]` is the probability of the larger class, which is the
positive class of `roc_auc_score`. -/
def maxLabel (yTrue : List Int) : Int :=
  yTrue.foldr max (yTrue.headD 0)

/-- Binary ROC-AUC as the normalized Mann-Whitney U statistic of the
positive-class scores (value of `sklearn.metrics.roc_auc_score` on a binary
target). -/
def rocAucStat (yTrue : List Int) (scores : List Rat) : Rat :=
  let pairs := yTrue.zip scores
  let pos := pairs.filter (fun p => p.1 == maxLabel yTrue)
  let neg := pairs.filter (fun p => !(p.1 == maxLabel yTrue))
  let num := (pos.map (fun a =>
    (neg.map (fun b =>
      if b.2 < a.2 then (1 : Rat) else if a.2 == b.2 then 1/2 else 0)).sum)).sum
  num / ((pos.length : Rat) * (neg.length : Rat))

/-- Errors of the MLflow trainer's `evaluate_model`. -/
inductive EvalErr where
  | modelNotTrained
  | rocAucUndefined
  deriving DecidableEq, Repr

/-- `sklearn.metrics.roc_auc_score` raises (`ValueError`) unless the target
has exactly two distinct labels. -/
def roc_auc_score_checked (yTrue : List Int) (scores : List Rat) :
    Except EvalErr Rat :=
  if yTrue.dedup.length = 2 then .ok (rocAucStat yTrue scores)
  else .error .rocAucUndefined

/-- `evaluate_model` of the local trainer (src/models/train.py lines
48-64): four weighted metrics always; `roc_auc` added exactly when the
model has `predict_proba` and `len(np.unique(y_test)) == 2`. -/
def evaluate_model (model : Classifier) (Xtest : List (List Rat))
    (ytest : List Int) : List (String × Rat) :=
  let yPred := model.predict Xtest
  let base :=
    [("accuracy", accuracy_score ytest yPred),
     ("precision", precision_score ytest yPred),
     ("recall", recall_score ytest yPred),
     ("f1_score", f1_score ytest yPred)]
  match model.proba with
  | none => base
  | some proba =>
    if ytest.dedup.length = 2 then
      base ++ [("roc_auc", rocAucStat ytest (probaCol1 (proba Xtest)))]
    else base

/-- `ModelTrainer.evaluate_model` (src/models/train_mlflow.py lines 66-88):
computes `predict_proba(X)[:, 1]` whenever the attribute exists and adds
`roc_auc` from it unconditionally; with a non-binary target the underlying
`roc_auc_score` raises, so no metric mapping is returned.  `model = none`
models `self.model is None` ("Model not trained yet"). -/
def ModelTrainer_evaluate_model (model : Option Classifier)
    (Xtest : List (List Rat)) (ytest : List Int) :
    Except EvalErr (List (String × Rat)) :=
  match model with
  | none => .error .modelNotTrained
  | some m =>
    let yPred := m.predict Xtest
    let base :=
      [("accuracy", accuracy_score ytest yPred),
       ("precision", precision_score ytest yPred),
       ("recall", recall_score ytest yPred),
       ("f1_score", f1_score ytest yPred)]
    match m.proba with
    | none => .ok base
    | some proba =>
      match roc_auc_score_checked ytest (probaCol1 (proba Xtest)) with
      | .error e => .error e
      | .ok v => .ok (base ++ [("roc_auc", v)])

/-! ## Fitting (`RandomForestClassifier`) -/

/-- Abstraction of a fitted `RandomForestClassifier`: the fit is a
deterministic function of the constructor parameters, the seed the fit
consumed, and the training data.  `seedUsed` is `random_state` when the
parameters carry one, else the draw from the global RNG. -/
structure RFModel where
  params : List (String × Nat)
  seedUsed : Nat
  trainX : List (List Rat)
  trainY : List Int
  deriving DecidableEq, Repr

/-- `RandomForestClassifier(**params).fit(X, y)` where `ambient` is the
global-RNG draw consumed when `params` fixes no `random_state`. -/
def fitRFC (params : List (String × Nat)) (ambient : Nat)
    (X : List (List Rat)) (y : List Int) : RFModel :=
  { params := params
    seedUsed := (params.lookup "random_state").getD ambient
    trainX := X
    trainY := y }

/-- Recognized configuration keys (src/models/train.py `config.get` calls;
`none` models an absent key). -/
structure TrainConfig where
  model_params : Option (List (String × Nat))
  features : Option (List String)
  target : Option String

/-- `train_model` of the local trainer (src/models/train.py lines 34-45):
`config.get('model_params', default)` with the fixed default of 100
estimators, max depth 10 and seed 42; the resulting parameter mapping is
passed verbatim to the constructor. -/
def train_model (Xtrain : List (List Rat)) (ytrain : List Int)
    (config : TrainConfig) (ambient : Nat) : RFModel :=
  let params := config.model_params.getD
    [("n_estimators", 100), ("max_depth", 10), ("random_state", 42)]
  fitRFC params ambient Xtrain ytrain

/-- Error of `ModelTrainer.train_model`: `RandomForestClassifier(**params,
random_state=42)` is a `TypeError` when `params` itself carries a
`random_state`. -/
inductive TrainErr where
  | duplicateRandomState
  deriving DecidableEq, Repr

/-- `ModelTrainer.train_model` (src/models/train_mlflow.py lines 52-64):
`params` argument, falling back to `config.get("model_params", {})`, and
`random_state=42` appended at the constructor call. -/
def ModelTrainer_train_model (Xtrain : List (List Rat)) (ytrain : List Int)
    (config : TrainConfig) (paramsArg : Option (List (String × Nat)))
    (ambient : Nat) : Except TrainErr RFModel :=
  let params :=
    match paramsArg with
    | none => config.model_params.getD []
    | some p => p
  if (params.lookup "random_state").isSome then .error .duplicateRandomState
  else .ok (fitRFC (params ++ [("random_state", 42)]) ambient Xtrain ytrain)

/-! ## Versioning and local persistence (src/models/train.py lines 67-107,
src/models/train_mlflow.py line 201) -/

/-- Calendar time at second precision, the granularity of
`strftime('%Y%m%d_%H%M%S')`. -/
structure DateTime where
  year : Nat
  month : Nat
  day : Nat
  hour : Nat
  minute : Nat
  second : Nat
  deriving DecidableEq, Repr

/-- Field ranges of a calendar time (Python datetimes satisfy these). -/
def DateTime.Valid (t : DateTime) : Prop :=
  t.year ≤ 9999 ∧ 1 ≤ t.month ∧ t.month ≤ 12 ∧ 1 ≤ t.day ∧ t.day ≤ 31 ∧
    t.hour ≤ 23 ∧ t.minute ≤ 59 ∧ t.second ≤ 59

instance (t : DateTime) : Decidable t.Valid := by
  unfold DateTime.Valid; infer_instance

/-- Chronological order on calendar times (lexicographic on the fields). -/
def DateTime.chronLE (a b : DateTime) : Bool :=
  if a.year ≠ b.year then a.year < b.year
  else if a.month ≠ b.month then a.month < b.month
  else if a.day ≠ b.day then a.day < b.day
  else if a.hour ≠ b.hour then a.hour < b.hour
  else if a.minute ≠ b.minute then a.minute < b.minute
  else a.second ≤ b.second

/-- An instant as `datetime.now()` yields it: calendar time plus the
sub-second microseconds that `%Y%m%d_%H%M%S` discards. -/
structure Instant where
  dt : DateTime
  micros : Nat
  deriving DecidableEq, Repr

/-- Decimal digit as a character. -/
def digitChar (n : Nat) : Char := Char.ofNat (48 + n)

/-- Zero-padded fixed-width decimal rendering: `padNum k n` is the `k`
least-significant decimal digits of `n`, most significant first (for
`n < 10 ^ k` this is `n` left-padded with zeros to width `k`). -/
def padNum : Nat → Nat → List Char
  | 0, _ => []
  | k + 1, n => digitChar (n / 10 ^ k) :: padNum k (n % 10 ^ k)

/-- `strftime('%Y%m%d_%H%M%S')`. -/
def strftimeYmdHMS (t : DateTime) : String :=
  ⟨padNum 4 t.year ++ padNum 2 t.month ++ padNum 2 t.day ++ ['_'] ++
    padNum 2 t.hour ++ padNum 2 t.minute ++ padNum 2 t.second⟩

/-- The generated model version, `f"v_{timestamp}"` with
`timestamp = now.strftime('%Y%m%d_%H%M%S')` (src/models/train.py lines
71-73; src/models/train_mlflow.py line 201 builds the same string from
`datetime.utcnow()`).  The microseconds of the instant are discarded. -/
def modelVersion (i : Instant) : String :=
  "v_" ++ strftimeYmdHMS i.dt

/-- `datetime.isoformat()` of an instant (`.%f` suffix only when the
microseconds are nonzero, as in Python). -/
def isoformat (i : Instant) : String :=
  ⟨padNum 4 i.dt.year ++ ['-'] ++ padNum 2 i.dt.month ++ ['-'] ++
    padNum 2 i.dt.day ++ ['T'] ++ padNum 2 i.dt.hour ++ [':'] ++
    padNum 2 i.dt.minute ++ [':'] ++ padNum 2 i.dt.second ++
    (if i.micros = 0 then [] else '.' :: padNum 6 i.micros)⟩

/-- Contents of one file of the local artifact store: a serialized model
(`joblib.dump`) or a metadata JSON document. -/
structure Metadata where
  version : String
  training_date : String
  model_type : String
  metrics : List (String × Rat)
  parameters : List (String × Nat)
  features : List String
  target : String
  model_path : String
  deriving DecidableEq, Repr

inductive FileData where
  | modelBlob (m : RFModel)
  | metaJson (md : Metadata)
  deriving DecidableEq, Repr

/-- The local artifact store: an association of paths to file contents,
most recent write first. -/
def Store := List (String × FileData)

/-- Writing a file (newest entry shadows older ones on read). -/
def Store.write (st : Store) (path : String) (d : FileData) : Store :=
  (path, d) :: st

/-- Reading a file: the most recently written content at the path. -/
def Store.read (st : Store) (path : String) : Option FileData :=
  List.lookup path st

/-- `os.path.join` of a directory and a file name. -/
def pathJoin (dir file : String) : String := dir ++ "/" ++ file

/-- Sequentially applied writes with fault injection: `failAt = some k`
makes the `k`-th write (0-based) raise an `OSError`, identified by the
path it was writing; earlier writes stay applied.  `failAt = none` is the
fault-free run. -/
def runWrites : Store → List (String × FileData) → Option Nat →
    Store × Option String
  | st, [], _ => (st, none)
  | st, (p, d) :: ws, failAt =>
    match failAt with
    | some 0 => (st, some p)
    | some (k + 1) => runWrites (st.write p d) ws (some k)
    | none => runWrites (st.write p d) ws none

/-- The metadata document built by `save_model_and_metadata`
(src/models/train.py lines 86-95). -/
def savedMetadata (metrics : List (String × Rat)) (config : TrainConfig)
    (now : Instant) (dir : String) : Metadata :=
  { version := modelVersion now
    training_date := isoformat now
    model_type := "RandomForestClassifier"
    metrics := metrics
    parameters := config.model_params.getD []
    features := config.features.getD []
    target := config.target.getD "target"
    model_path := pathJoin dir ("model_" ++ modelVersion now ++ ".pkl") }

/-- The four writes of `save_model_and_metadata`, in source order:
version-keyed artifact, latest-keyed artifact, version-keyed metadata,
latest-keyed metadata (src/models/train.py lines 75-105). -/
def saveWrites (model : RFModel) (metrics : List (String × Rat))
    (config : TrainConfig) (now : Instant) (dir : String) :
    List (String × FileData) :=
  [(pathJoin dir ("model_" ++ modelVersion now ++ ".pkl"), .modelBlob model),
   (pathJoin dir "model_latest.pkl", .modelBlob model),
   (pathJoin dir ("metadata_" ++ modelVersion now ++ ".json"),
     .metaJson (savedMetadata metrics config now dir)),
   (pathJoin dir "metadata_latest.json",
     .metaJson (savedMetadata metrics config now dir))]

/-- Outcome of `save_model_and_metadata`: the store after the call and
either the returned `(version, model_path, metadata_path)` triple or the
path whose write raised. -/
structure SaveOutcome where
  store : Store
  result : Except String (String × String × String)

/-- `save_model_and_metadata` (src/models/train.py lines 67-107):
generates the version from the current instant, performs the four writes
in order with no exception handling, and returns the version and the two
version-keyed paths.  `failAt` injects an I/O failure into the given write;
the source has no handler, so the underlying error propagates and the
earlier writes remain visible. -/
def save_model_and_metadata (st : Store) (model : RFModel)
    (metrics : List (String × Rat)) (config : TrainConfig) (now : Instant)
    (dir : String) (failAt : Option Nat) : SaveOutcome :=
  let version := modelVersion now
  let (st', err) := runWrites st (saveWrites model metrics config now dir) failAt
  match err with
  | some p => ⟨st', .error p⟩
  | none => ⟨st',
      .ok (version, pathJoin dir ("model_" ++ version ++ ".pkl"),
        pathJoin dir ("metadata_" ++ version ++ ".json"))⟩

/-! ## Lexicographic order on strings (for the version-monotonicity
property) -/

/-- Lexicographic comparison of character lists by code point. -/
def lexLe : List Char → List Char → Bool
  | [], _ => true
  | _ :: _, [] => false
  | a :: as, b :: bs =>
    if a.toNat < b.toNat then true
    else if b.toNat < a.toNat then false
    else lexLe as bs

/-- Lexicographic order on strings by code point. -/
def strLexLe (s t : String) : Bool := lexLe s.data t.data

theorem lexLe_refl (l : List Char) : lexLe l l = true := by
  induction l with
  | nil => rfl
  | cons c cs ih => simp [lexLe, ih]

theorem lexLe_cons_same (c : Char) (xs ys : List Char) :
    lexLe (c :: xs) (c :: ys) = lexLe xs ys := by
  simp [lexLe]

theorem char_eq_of_toNat_eq (a b : Char) (h : a.toNat = b.toNat) : a = b := by
  unfold Char.toNat at h
  exact Char.eq_of_val_eq (UInt32.eq_of_val_eq (Fin.eq_of_val_eq h))

theorem lexLe_append (xs ys xs' ys' : List Char)
    (h : xs.length = ys.length) :
    lexLe (xs ++ xs') (ys ++ ys') =
      if xs = ys then lexLe xs' ys' else lexLe xs ys := by
  induction xs generalizing ys with
  | nil =>
    cases ys with
    | nil => simp
    | cons b bs => simp at h
  | cons a as ih =>
    cases ys with
    | nil => simp at h
    | cons b bs =>
      simp only [List.length_cons, Nat.succ.injEq] at h
      by_cases hab : a.toNat < b.toNat
      · have hne : (a :: as : List Char) ≠ b :: bs := by
          intro hcc
          injection hcc with h1 _
          subst h1
          omega
        simp only [List.cons_append, lexLe, if_pos hab, if_neg hne]
      · by_cases hba : b.toNat < a.toNat
        · have hne : (a :: as : List Char) ≠ b :: bs := by
            intro hcc
            injection hcc with h1 _
            subst h1
            omega
          simp only [List.cons_append, lexLe, if_neg hab, if_pos hba, if_neg hne]
        · have hcc : a = b := char_eq_of_toNat_eq a b (by omega)
          subst hcc
          simp only [List.cons_append, lexLe, if_neg hab, List.append_eq]
          rw [ih bs h]
          by_cases hx : as = bs <;> simp [hx]

theorem padNum_length (k n : Nat) : (padNum k n).length = k := by
  induction k generalizing n with
  | zero => rfl
  | succ k ih => simp [padNum, ih]

theorem digitChar_toNat (d : Nat) (h : d < 10) :
    (digitChar d).toNat = 48 + d := by
  interval_cases d <;> decide

theorem padNum_lexLe (k n m : Nat) (hn : n < 10 ^ k) (hm : m < 10 ^ k) :
    lexLe (padNum k n) (padNum k m) = decide (n ≤ m) := by
  induction k generalizing n m with
  | zero =>
    simp only [pow_zero, Nat.lt_one_iff] at hn hm
    subst hn; subst hm
    rfl
  | succ k ih =>
    have h10 : (0 : Nat) < 10 ^ k := pow_pos (by norm_num) k
    have hdn : n / 10 ^ k < 10 := by
      rw [Nat.div_lt_iff_lt_mul h10]
      calc n < 10 ^ (k + 1) := hn
        _ = 10 * 10 ^ k := by ring
    have hdm : m / 10 ^ k < 10 := by
      rw [Nat.div_lt_iff_lt_mul h10]
      calc m < 10 ^ (k + 1) := hm
        _ = 10 * 10 ^ k := by ring
    have hn' : 10 ^ k * (n / 10 ^ k) + n % 10 ^ k = n := Nat.div_add_mod n (10 ^ k)
    have hm' : 10 ^ k * (m / 10 ^ k) + m % 10 ^ k = m := Nat.div_add_mod m (10 ^ k)
    have hrn : n % 10 ^ k < 10 ^ k := Nat.mod_lt n h10
    have hrm : m % 10 ^ k < 10 ^ k := Nat.mod_lt m h10
    simp only [padNum, lexLe, digitChar_toNat _ hdn, digitChar_toNat _ hdm]
    rcases Nat.lt_trichotomy (n / 10 ^ k) (m / 10 ^ k) with hlt | heq | hgt
    · rw [if_pos (by omega)]
      have hmul : 10 ^ k * (n / 10 ^ k + 1) ≤ 10 ^ k * (m / 10 ^ k) :=
        Nat.mul_le_mul_left _ (by omega)
      rw [Nat.mul_add, Nat.mul_one] at hmul
      have : n ≤ m := by omega
      simp [this]
    · rw [if_neg (by omega), if_neg (by omega),
        ih (n % 10 ^ k) (m % 10 ^ k) hrn hrm, decide_eq_decide]
      rw [heq] at hn'
      omega
    · rw [if_neg (by omega), if_pos (by omega)]
      have hmul : 10 ^ k * (m / 10 ^ k + 1) ≤ 10 ^ k * (n / 10 ^ k) :=
        Nat.mul_le_mul_left _ (by omega)
      rw [Nat.mul_add, Nat.mul_one] at hmul
      have : ¬ (n ≤ m) := by omega
      simp [this]

theorem padNum_inj (k n m : Nat) (hn : n < 10 ^ k) (hm : m < 10 ^ k)
    (h : padNum k n = padNum k m) : n = m := by
  have h1 := padNum_lexLe k n m hn hm
  have h2 := padNum_lexLe k m n hm hn
  rw [h, lexLe_refl] at h1
  rw [h, lexLe_refl] at h2
  have g1 := of_decide_eq_true h1.symm
  have g2 := of_decide_eq_true h2.symm
  omega

theorem lexLe_block (k n m : Nat) (hn : n < 10 ^ k) (hm : m < 10 ^ k)
    (xs ys : List Char) :
    lexLe (padNum k n ++ xs) (padNum k m ++ ys) =
      if n = m then lexLe xs ys else decide (n ≤ m) := by
  rw [lexLe_append _ _ _ _ (by rw [padNum_length, padNum_length])]
  by_cases h : n = m
  · subst h
    simp
  · have hpne : padNum k n ≠ padNum k m := fun hc => h (padNum_inj k n m hn hm hc)
    rw [if_neg hpne, if_neg h, padNum_lexLe k n m hn hm]

theorem strftime_mono (a b : DateTime) (ha : a.Valid) (hb : b.Valid)
    (hle : DateTime.chronLE a b = true) :
    lexLe (strftimeYmdHMS a).data (strftimeYmdHMS b).data = true := by
  obtain ⟨ha1, ha2, ha3, ha4, ha5, ha6, ha7, ha8⟩ := ha
  obtain ⟨hb1, hb2, hb3, hb4, hb5, hb6, hb7, hb8⟩ := hb
  have hy : a.year < 10 ^ 4 := by norm_num; omega
  have hy' : b.year < 10 ^ 4 := by norm_num; omega
  have hmo : a.month < 10 ^ 2 := by norm_num; omega
  have hmo' : b.month < 10 ^ 2 := by norm_num; omega
  have hd : a.day < 10 ^ 2 := by norm_num; omega
  have hd' : b.day < 10 ^ 2 := by norm_num; omega
  have hh : a.hour < 10 ^ 2 := by norm_num; omega
  have hh' : b.hour < 10 ^ 2 := by norm_num; omega
  have hmi : a.minute < 10 ^ 2 := by norm_num; omega
  have hmi' : b.minute < 10 ^ 2 := by norm_num; omega
  have hs : a.second < 10 ^ 2 := by norm_num; omega
  have hs' : b.second < 10 ^ 2 := by norm_num; omega
  show lexLe (padNum 4 a.year ++ (padNum 2 a.month ++ (padNum 2 a.day ++
      (['_'] ++ (padNum 2 a.hour ++ (padNum 2 a.minute ++ padNum 2 a.second))))))
    (padNum 4 b.year ++ (padNum 2 b.month ++ (padNum 2 b.day ++
      (['_'] ++ (padNum 2 b.hour ++ (padNum 2 b.minute ++ padNum 2 b.second)))))) = true
  rw [lexLe_block 4 _ _ hy hy']
  unfold DateTime.chronLE at hle
  by_cases h1 : a.year = b.year
  case neg =>
    rw [if_neg h1]
    simp only [ne_eq, h1, not_false_eq_true, if_true, decide_eq_true_eq] at hle
    simp [Nat.le_of_lt hle]
  case pos =>
    rw [if_pos h1, lexLe_block 2 _ _ hmo hmo']
    simp only [ne_eq, h1, not_true_eq_false, if_false] at hle
    by_cases h2 : a.month = b.month
    case neg =>
      rw [if_neg h2]
      simp only [ne_eq, h2, not_false_eq_true, if_true, decide_eq_true_eq] at hle
      simp [Nat.le_of_lt hle]
    case pos =>
      rw [if_pos h2, lexLe_block 2 _ _ hd hd']
      simp only [ne_eq, h2, not_true_eq_false, if_false] at hle
      by_cases h3 : a.day = b.day
      case neg =>
        rw [if_neg h3]
        simp only [ne_eq, h3, not_false_eq_true, if_true, decide_eq_true_eq] at hle
        simp [Nat.le_of_lt hle]
      case pos =>
        rw [if_pos h3]
        simp only [List.singleton_append]
        rw [lexLe_cons_same, lexLe_block 2 _ _ hh hh']
        simp only [ne_eq, h3, not_true_eq_false, if_false] at hle
        by_cases h4 : a.hour = b.hour
        case neg =>
          rw [if_neg h4]
          simp only [ne_eq, h4, not_false_eq_true, if_true, decide_eq_true_eq] at hle
          simp [Nat.le_of_lt hle]
        case pos =>
          rw [if_pos h4, lexLe_block 2 _ _ hmi hmi']
          simp only [ne_eq, h4, not_true_eq_false, if_false] at hle
          by_cases h5 : a.minute = b.minute
          case neg =>
            rw [if_neg h5]
            simp only [ne_eq, h5, not_false_eq_true, if_true, decide_eq_true_eq] at hle
            simp [Nat.le_of_lt hle]
          case pos =>
            rw [if_pos h5, padNum_lexLe 2 _ _ hs hs']
            simp only [ne_eq, h5, not_true_eq_false, if_false] at hle
            exact hle

theorem string_ext (s t : String) (h : s.data = t.data) : s = t := by
  cases s
  cases t
  exact congrArg String.mk h

theorem strftime_inj (a b : DateTime) (ha : a.Valid) (hb : b.Valid)
    (h : strftimeYmdHMS a = strftimeYmdHMS b) : a = b := by
  obtain ⟨ha1, ha2, ha3, ha4, ha5, ha6, ha7, ha8⟩ := ha
  obtain ⟨hb1, hb2, hb3, hb4, hb5, hb6, hb7, hb8⟩ := hb
  have hy : a.year < 10 ^ 4 := by norm_num; omega
  have hy' : b.year < 10 ^ 4 := by norm_num; omega
  have hmo : a.month < 10 ^ 2 := by norm_num; omega
  have hmo' : b.month < 10 ^ 2 := by norm_num; omega
  have hd : a.day < 10 ^ 2 := by norm_num; omega
  have hd' : b.day < 10 ^ 2 := by norm_num; omega
  have hh : a.hour < 10 ^ 2 := by norm_num; omega
  have hh' : b.hour < 10 ^ 2 := by norm_num; omega
  have hmi : a.minute < 10 ^ 2 := by norm_num; omega
  have hmi' : b.minute < 10 ^ 2 := by norm_num; omega
  have hs : a.second < 10 ^ 2 := by norm_num; omega
  have hs' : b.second < 10 ^ 2 := by norm_num; omega
  have hdata : (padNum 4 a.year ++ (padNum 2 a.month ++ (padNum 2 a.day ++
      (['_'] ++ (padNum 2 a.hour ++ (padNum 2 a.minute ++ padNum 2 a.second)))))) =
      (padNum 4 b.year ++ (padNum 2 b.month ++ (padNum 2 b.day ++
      (['_'] ++ (padNum 2 b.hour ++ (padNum 2 b.minute ++ padNum 2 b.second)))))) :=
    congrArg String.data h
  obtain ⟨e1, r1⟩ := List.append_inj hdata (by simp [padNum_length])
  obtain ⟨e2, r2⟩ := List.append_inj r1 (by simp [padNum_length])
  obtain ⟨e3, r3⟩ := List.append_inj r2 (by simp [padNum_length])
  obtain ⟨_, r4⟩ := List.append_inj r3 rfl
  obtain ⟨e4, r5⟩ := List.append_inj r4 (by simp [padNum_length])
  obtain ⟨e5, e6⟩ := List.append_inj r5 (by simp [padNum_length])
  have q1 := padNum_inj 4 _ _ hy hy' e1
  have q2 := padNum_inj 2 _ _ hmo hmo' e2
  have q3 := padNum_inj 2 _ _ hd hd' e3
  have q4 := padNum_inj 2 _ _ hh hh' e4
  have q5 := padNum_inj 2 _ _ hmi hmi' e5
  have q6 := padNum_inj 2 _ _ hs hs' e6
  cases a
  cases b
  simp_all

/-- Decimal-digit character test ('0' to '9'). -/
def isDigitChar (c : Char) : Bool :=
  decide (48 ≤ c.toNat) && decide (c.toNat ≤ 57)

theorem padNum_digits (k n : Nat) (hn : n < 10 ^ k) :
    (padNum k n).all isDigitChar = true := by
  induction k generalizing n with
  | zero => rfl
  | succ k ih =>
    have h10 : (0 : Nat) < 10 ^ k := pow_pos (by norm_num) k
    have hdd : n / 10 ^ k < 10 := by
      rw [Nat.div_lt_iff_lt_mul h10]
      calc n < 10 ^ (k + 1) := hn
        _ = 10 * 10 ^ k := by ring
    simp only [padNum, List.all_cons, Bool.and_eq_true]
    constructor
    · simp [isDigitChar, digitChar_toNat _ hdd]
      omega
    · exact ih _ (Nat.mod_lt n h10)

/-! ## Shared helper lemmas about the predictor state machine -/

/-- The four model fields are all unset or all set. -/
def PredictorState.consistent (s : PredictorState) : Bool :=
  (s.model.isNone && s.current_version.isNone && s.current_run_id.isNone &&
    s.model_metadata.isNone) ||
  (s.model.isSome && s.current_version.isSome && s.current_run_id.isSome &&
    s.model_metadata.isSome)

theorem load_version_err_unchanged (s : PredictorState) (v : String)
    (h : (load_model_version_run s v).2.isSome) :
    (load_model_version_run s v).1 = s := by
  unfold load_model_version_run at h ⊢
  cases hc : s.mlflow_client <;> simp only [hc] at h ⊢
  case some c =>
    cases hv : c.get_model_by_version v <;> simp only [hv] at h ⊢
    case some info =>
      cases hm : c.load_model info.model_uri <;> simp only [hm] at h ⊢
      case some m => simp at h

theorem load_production_err_unchanged (s : PredictorState)
    (h : (load_production_model_run s).2.isSome) :
    (load_production_model_run s).1 = s := by
  unfold load_production_model_run at h ⊢
  cases hc : s.mlflow_client <;> simp only [hc] at h ⊢
  case some c =>
    cases hv : c.get_latest_production_model <;> simp only [hv] at h ⊢
    case some info =>
      cases hm : c.load_model info.model_uri <;> simp only [hm] at h ⊢
      case some m => simp at h

theorem load_version_consistent (s : PredictorState) (v : String)
    (hs : s.consistent = true) :
    ((load_model_version_run s v).1).consistent = true := by
  unfold load_model_version_run
  cases hc : s.mlflow_client <;> simp only
  case none => exact hs
  case some c =>
    cases hv : c.get_model_by_version v <;> simp only
    case none => exact hs
    case some info =>
      cases hm : c.load_model info.model_uri <;> simp only
      case none => exact hs
      case some m => simp [PredictorState.consistent]

theorem load_production_consistent (s : PredictorState)
    (hs : s.consistent = true) :
    ((load_production_model_run s).1).consistent = true := by
  unfold load_production_model_run
  cases hc : s.mlflow_client <;> simp only
  case none => exact hs
  case some c =>
    cases hv : c.get_latest_production_model <;> simp only
    case none => exact hs
    case some info =>
      cases hm : c.load_model info.model_uri <;> simp only
      case none => exact hs
      case some m => simp [PredictorState.consistent]

theorem predictBody_state (s : PredictorState) (f : FeatureRecord) (n : Nat) :
    (predictBody s f n).state = s := by
  unfold predictBody
  cases s.model <;> rfl

theorem predict_state_cases (s : PredictorState) (f : FeatureRecord)
    (v : Option String) :
    (predict_run s f v).state = s ∨
    (predict_run s f v).state = (load_model_version_run s (v.getD "")).1 := by
  unfold predict_run
  by_cases hr : (versionTruthy v && (v != s.current_version)) = true
  · rw [if_pos hr]
    right
    rcases hlv : load_model_version_run s (v.getD "") with ⟨s', e?⟩
    cases e? <;> simp [predictBody_state]
  · rw [if_neg hr]
    left
    exact predictBody_state s f 0

theorem predictBody_loads (s : PredictorState) (f : FeatureRecord) (n : Nat) :
    (predictBody s f n).loadCalls = n := by
  unfold predictBody
  cases s.model <;> rfl

theorem predict_loads_eq (s : PredictorState) (f : FeatureRecord)
    (v : Option String) :
    (predict_run s f v).loadCalls =
      if versionTruthy v && (v != s.current_version) then 1 else 0 := by
  unfold predict_run
  by_cases hr : (versionTruthy v && (v != s.current_version)) = true
  · rw [if_pos hr, if_pos hr]
    rcases load_model_version_run s (v.getD "") with ⟨s', e?⟩
    cases e? <;> simp [predictBody_loads]
  · rw [if_neg hr, if_neg hr]
    exact predictBody_loads s f 0

/-! ## Concrete fixtures used by the witness theorems -/

def servedModel0 : ServedModel :=
  { predict := fun _ => [1]
    proba := some (fun _ => [[1/2, 1/2]]) }

def info0 : TrackedModelInfo :=
  { model_uri := "models:/mlops-model/1"
    version := "v_20240101_000000"
    run_id := "run0"
    tags := [("training_date", "2024-01-01")]
    metrics := [("accuracy", 1)]
    params := [("n_estimators", "100")]
    stage := "Production" }

/-- A tracking client that knows no version at all. -/
def clientEmpty : MlflowClient :=
  { get_latest_production_model := none
    get_model_by_version := fun _ => none
    load_model := fun _ => none }

/-- A tracking client that resolves exactly `info0.version`. -/
def client0 : MlflowClient :=
  { get_latest_production_model := some info0
    get_model_by_version := fun v => if v = "v_20240101_000000" then some info0 else none
    load_model := fun _ => some servedModel0 }

/-- A predictor that has loaded `info0` through `client0`. -/
def loadedState0 : PredictorState :=
  { mlflow_client := some client0
    model := some servedModel0
    current_version := some "v_20240101_000000"
    current_run_id := some "run0"
    model_metadata := some info0 }

/-! ## The claims -/

/-- C6: with a configured tracking client, `load_model_version` on a
version the client cannot resolve (`get_model_by_version` returns null)
fails with `NotFoundError` (the `ValueError "Model version ... not found"`
of the source) and leaves the predictor state exactly as it was — no
partial swap of `model`, `current_version`, `current_run_id`,
`model_metadata`. -/
theorem C6_load_unknown_version_not_found_unchanged
    (s : PredictorState) (c : MlflowClient) (version : String)
    (hc : s.mlflow_client = some c)
    (hres : c.get_model_by_version version = none) :
    load_model_version_run s version = (s, some (.versionNotFound version)) := by
  unfold load_model_version_run
  simp only [hc, hres]

/-- Witness for C6 at a concrete predictor and version. -/
theorem C6_witness :
    load_model_version_run (ModelPredictor.init (some clientEmpty)) "v_does_not_exist" =
      (ModelPredictor.init (some clientEmpty),
        some (.versionNotFound "v_does_not_exist")) :=
  C6_load_unknown_version_not_found_unchanged
    (ModelPredictor.init (some clientEmpty)) clientEmpty "v_does_not_exist" rfl rfl

/-- C7: on a predictor whose model slot is still unset (as after
construction, when no load call has succeeded), `predict` without a
version argument fails with `NotLoadedError` and produces no prediction
result; the state is untouched. -/
theorem C7_predict_without_load_fails
    (s : PredictorState) (features : FeatureRecord) (h : s.model = none) :
    (predict_run s features none).result = .error .notLoaded ∧
    (predict_run s features none).state = s ∧
    (predict_run s features none).loadCalls = 0 := by
  have hbody : predict_run s features none = predictBody s features 0 := by
    unfold predict_run
    rfl
  rw [hbody]
  unfold predictBody
  rw [h]
  exact ⟨rfl, rfl, rfl⟩

/-- Witness for C7: the spec's scenario, a fresh predictor and the sample
feature record. -/
theorem C7_witness :
    (predict_run (ModelPredictor.init none)
      [("feature1", 1/10), ("feature2", -1/5), ("feature3", 3/10)] none).result =
      .error .notLoaded :=
  (C7_predict_without_load_fails (ModelPredictor.init none)
    [("feature1", 1/10), ("feature2", -1/5), ("feature3", 3/10)] rfl).1

/-- C9: on a loaded predictor, `get_model_info` twice with no intervening
load returns identical output (it reads the metadata and assigns nothing,
so the second call sees the same state). -/
theorem C9_get_model_info_idempotent
    (env : String) (s : PredictorState) (md : TrackedModelInfo)
    (h : s.model_metadata = some md) :
    (get_model_info_run env (get_model_info_run env s).1).2 =
      (get_model_info_run env s).2 ∧
    ∃ info, (get_model_info_run env s).2 = .ok info := by
  have h1 : (get_model_info_run env s).1 = s := by
    unfold get_model_info_run
    rw [h]
  refine ⟨by rw [h1], ?_⟩
  unfold get_model_info_run
  rw [h]
  exact ⟨_, rfl⟩

/-- Witness for C9 at the concrete loaded predictor. -/
theorem C9_witness :
    (get_model_info_run "mlops-model" (get_model_info_run "mlops-model" loadedState0).1).2 =
      (get_model_info_run "mlops-model" loadedState0).2 :=
  (C9_get_model_info_idempotent "mlops-model" loadedState0 info0 rfl).1

/-- C10: the four model fields are all unset or all set: this holds after
construction, and every operation preserves it; moreover a
`load_model_version` or `load_production_model` call that fails (in
particular at version resolution) mutates none of the four fields, and
`get_model_info` never mutates the state. -/
theorem C10_all_or_nothing_invariant :
    (∀ c, (ModelPredictor.init c).consistent = true) ∧
    (∀ s v, s.consistent = true →
      ((load_model_version_run s v).1).consistent = true) ∧
    (∀ s, s.consistent = true →
      ((load_production_model_run s).1).consistent = true) ∧
    (∀ s f v, s.consistent = true →
      ((predict_run s f v).state).consistent = true) ∧
    (∀ env s, (get_model_info_run env s).1 = s) ∧
    (∀ s v, (load_model_version_run s v).2.isSome →
      (load_model_version_run s v).1 = s) ∧
    (∀ s, (load_production_model_run s).2.isSome →
      (load_production_model_run s).1 = s) := by
  refine ⟨fun c => rfl, load_version_consistent, load_production_consistent,
    ?_, ?_, load_version_err_unchanged, load_production_err_unchanged⟩
  · intro s f v hs
    rcases predict_state_cases s f v with h | h
    · rw [h]; exact hs
    · rw [h]; exact load_version_consistent s (v.getD "") hs
  · intro env s
    unfold get_model_info_run
    cases s.model_metadata <;> rfl

/-- Witness for C10: the invariant transported along a failing resolution
on the concrete loaded predictor. -/
theorem C10_witness :
    ((load_model_version_run loadedState0 "v_missing").1).consistent = true :=
  C10_all_or_nothing_invariant.2.1 loadedState0 "v_missing" rfl

/-- C5 counterexample: the claim quantifies over every explicit version
argument.  The source guard is `if model_version and model_version !=
self.current_version`, so the explicit version `""`, which differs from
the loaded version, is falsy and triggers zero reloads — yet a result is
still produced from the stale model. -/
theorem C5_counterexample :
    (some "" : Option String) ≠ loadedState0.current_version ∧
    (predict_run loadedState0 [] (some "")).loadCalls = 0 ∧
    ∃ r, (predict_run loadedState0 [] (some "")).result = .ok r := by
  exact ⟨by decide, rfl, ⟨_, rfl⟩⟩

/-- C5 amended: a predict call carrying an explicit NON-EMPTY version
argument that differs from the currently loaded version performs exactly
one `load_model_version` call; a call whose explicit version equals the
loaded version, whose explicit version is empty, or that carries no
version, performs zero such calls. -/
theorem C5_reload_policy :
    (∀ (s : PredictorState) (f : FeatureRecord) (ver : String),
      ver ≠ "" → some ver ≠ s.current_version →
      (predict_run s f (some ver)).loadCalls = 1) ∧
    (∀ (s : PredictorState) (f : FeatureRecord) (ver : String),
      some ver = s.current_version →
      (predict_run s f (some ver)).loadCalls = 0) ∧
    (∀ (s : PredictorState) (f : FeatureRecord),
      (predict_run s f none).loadCalls = 0) := by
  refine ⟨?_, ?_, ?_⟩
  · intro s f ver hne hcur
    rw [predict_loads_eq]
    have h1 : versionTruthy (some ver) = true := by
      simp [versionTruthy, hne]
    have h2 : ((some ver : Option String) != s.current_version) = true := by
      simp [bne_iff_ne, hcur]
    rw [h1, h2]
    rfl
  · intro s f ver hcur
    rw [predict_loads_eq]
    have h2 : ((some ver : Option String) != s.current_version) = false := by
      simp [hcur]
    rw [h2]
    simp
  · intro s f
    rw [predict_loads_eq]
    rfl

/-- Witness for C5: a non-empty differing version on the concrete loaded
predictor performs exactly one reload. -/
theorem C5_witness :
    (predict_run loadedState0 [] (some "v_20240102_000000")).loadCalls = 1 :=
  C5_reload_policy.1 loadedState0 [] "v_20240102_000000" (by decide) (by decide)

/-- Key membership in a metric mapping. -/
def hasMetricKey (ms : List (String × Rat)) (k : String) : Bool :=
  (ms.lookup k).isSome

/-- A classifier exposing `predict_proba` (constant probabilities). -/
def clfProb : Classifier :=
  { predict := fun X => X.map (fun _ => 0)
    proba := some (fun X => X.map (fun _ => [1/2, 1/2])) }

def Xthree : List (List Rat) := [[0], [1], [2]]

/-- A three-class test target. -/
def ythree : List Int := [0, 1, 2]

/-- C1 counterexample: on a classifier with `predict_proba` and a
three-class test target, the MLflow trainer's `evaluate_model` does not
return a mapping without the `roc_auc` key — it computes `roc_auc_score`
unconditionally, which fails on a non-binary target, so no metric mapping
is returned at all. -/
theorem C1_counterexample :
    clfProb.proba.isSome = true ∧
    ythree.dedup.length ≠ 2 ∧
    ModelTrainer_evaluate_model (some clfProb) Xthree ythree =
      .error .rocAucUndefined := by
  refine ⟨rfl, by decide, ?_⟩
  rfl

/-- C1 amended: the iff between presence of `roc_auc` and
(`predict_proba` present AND exactly two distinct test labels) holds for
the LOCAL trainer's `evaluate_model`; the MLflow trainer instead keys
`roc_auc` on `predict_proba` alone — whenever it returns a mapping, the
key is present iff `predict_proba` exists, and with `predict_proba` on a
non-binary target it raises instead of returning a mapping without the
key. -/
theorem C1_roc_auc_conditional (m : Classifier) (X : List (List Rat))
    (y : List Int) :
    (hasMetricKey (evaluate_model m X y) "roc_auc"
        = (m.proba.isSome && (y.dedup.length == 2))) ∧
    (∀ ms, ModelTrainer_evaluate_model (some m) X y = .ok ms →
        hasMetricKey ms "roc_auc" = m.proba.isSome) ∧
    (m.proba.isSome = true → y.dedup.length ≠ 2 →
        ModelTrainer_evaluate_model (some m) X y = .error .rocAucUndefined) := by
  refine ⟨?_, ?_, ?_⟩
  · unfold evaluate_model
    cases hp : m.proba with
    | none => simp [hasMetricKey, List.lookup]
    | some proba =>
      by_cases hy : y.dedup.length = 2
      · simp [hasMetricKey, List.lookup, hy]
      · simp [hasMetricKey, List.lookup, hy]
  · intro ms h
    unfold ModelTrainer_evaluate_model at h
    cases hp : m.proba with
    | none =>
      simp only [hp] at h
      cases h
      simp [hasMetricKey, List.lookup]
    | some proba =>
      simp only [hp] at h
      unfold roc_auc_score_checked at h
      by_cases hy : y.dedup.length = 2
      · rw [if_pos hy] at h
        simp only at h
        cases h
        simp [hasMetricKey, List.lookup]
      · rw [if_neg hy] at h
        simp at h
  · intro hp hy
    unfold ModelTrainer_evaluate_model
    cases hpp : m.proba with
    | none => rw [hpp] at hp; simp at hp
    | some proba =>
      unfold roc_auc_score_checked
      simp only [hpp, if_neg hy]

/-- Witness for C1: at the concrete classifier and three-class target, the
MLflow evaluation fails rather than omitting the key. -/
theorem C1_witness :
    ModelTrainer_evaluate_model (some clfProb) Xthree ythree =
      .error .rocAucUndefined :=
  (C1_roc_auc_conditional clfProb Xthree ythree).2.2 rfl (by decide)

theorem lookup_append_of_none {α β : Type} [BEq α] (l1 l2 : List (α × β))
    (k : α) (h : l1.lookup k = none) :
    (l1 ++ l2).lookup k = l2.lookup k := by
  induction l1 with
  | nil => rfl
  | cons p l1 ih =>
    rcases p with ⟨a, b⟩
    simp only [List.lookup, List.cons_append] at h ⊢
    cases hk : k == a with
    | true => rw [hk] at h; cases h
    | false => rw [hk] at h; exact ih h

/-- A configuration whose `model_params` fixes no seed. -/
def cfgNoSeed : TrainConfig :=
  { model_params := some [("n_estimators", 50)]
    features := none
    target := none }

/-- A configuration without `model_params`. -/
def cfgBare : TrainConfig :=
  { model_params := none
    features := none
    target := none }

/-- C3 counterexample: with a config that supplies `model_params` without
`random_state`, the local trainer's effective parameters fix no seed, so
the fit consumes the global RNG: the seed used is not 42, and two runs on
the same data with the same effective parameters (differing only in the
RNG draw) produce different models. -/
theorem C3_counterexample :
    (train_model [[1]] [1] cfgNoSeed 0).seedUsed ≠ 42 ∧
    train_model [[1]] [1] cfgNoSeed 0 ≠ train_model [[1]] [1] cfgNoSeed 1 := by
  decide

/-- C3 amended: the MLflow trainer always fixes seed 42 (it appends
`random_state=42` at the constructor, and rejects parameter sets that
carry their own `random_state`), so its result never depends on the RNG
draw; the local trainer fixes seed 42 only through the hard default used
when the config has no `model_params` — in general it is deterministic
exactly when the effective parameters carry a `random_state`, which is
then the seed used. -/
theorem C3_seed_and_reproducibility :
    (∀ (config : TrainConfig) (X : List (List Rat)) (y : List Int) (a : Nat),
      config.model_params = none →
      train_model X y config a = train_model X y config 0 ∧
      (train_model X y config a).seedUsed = 42) ∧
    (∀ (config : TrainConfig) (X : List (List Rat)) (y : List Int)
        (a₁ a₂ r : Nat),
      (config.model_params.getD
        [("n_estimators", 100), ("max_depth", 10), ("random_state", 42)]).lookup
          "random_state" = some r →
      train_model X y config a₁ = train_model X y config a₂ ∧
      (train_model X y config a₁).seedUsed = r) ∧
    (∀ (config : TrainConfig) (paramsArg : Option (List (String × Nat)))
        (X : List (List Rat)) (y : List Int) (a₁ a₂ : Nat),
      ModelTrainer_train_model X y config paramsArg a₁ =
        ModelTrainer_train_model X y config paramsArg a₂ ∧
      ∀ mdl, ModelTrainer_train_model X y config paramsArg a₁ = .ok mdl →
        mdl.seedUsed = 42) := by
  refine ⟨?_, ?_, ?_⟩
  · intro config X y a h
    refine ⟨?_, ?_⟩ <;> simp [train_model, fitRFC, h, List.lookup]
  · intro config X y a₁ a₂ r h
    refine ⟨?_, ?_⟩ <;> simp [train_model, fitRFC, h]
  · intro config paramsArg X y a₁ a₂
    unfold ModelTrainer_train_model
    by_cases h : ((match paramsArg with
        | none => config.model_params.getD []
        | some p => p).lookup "random_state").isSome = true
    · rw [if_pos h, if_pos h]
      exact ⟨rfl, by intro mdl hm; cases hm⟩
    · rw [if_neg h, if_neg h]
      have hl : ((match paramsArg with
          | none => config.model_params.getD []
          | some p => p).lookup "random_state") = none := by
        cases hx : ((match paramsArg with
            | none => config.model_params.getD []
            | some p => p).lookup "random_state") with
        | none => rfl
        | some v => rw [hx] at h; simp at h
      have hseed : ((match paramsArg with
          | none => config.model_params.getD []
          | some p => p) ++ [("random_state", 42)]).lookup "random_state"
            = some 42 := by
        rw [lookup_append_of_none _ _ _ hl]
        rfl
      unfold fitRFC
      rw [hseed]
      exact ⟨rfl, by intro mdl hm; cases hm; rfl⟩

/-- Witness for C3: the default fallback fixes seed 42 on the local
trainer at a concrete RNG draw. -/
theorem C3_witness :
    (train_model [[1]] [1] cfgBare 7).seedUsed = 42 :=
  (C3_seed_and_reproducibility.1 cfgBare [[1]] [1] 7 rfl).2

theorem meta_version_path_ne_latest (dir rest : String) :
    pathJoin dir ("metadata_" ++ ("v_" ++ rest) ++ ".json") ≠
      pathJoin dir "metadata_latest.json" := by
  intro h
  have hd : (dir ++ "/").data ++ ("metadata_" ++ ("v_" ++ rest) ++ ".json").data =
      (dir ++ "/").data ++ "metadata_latest.json".data := congrArg String.data h
  have h2 := List.append_cancel_left hd
  have h3 : 'm' :: 'e' :: 't' :: 'a' :: 'd' :: 'a' :: 't' :: 'a' :: '_' :: 'v' :: '_' ::
      (rest.data ++ ".json".data) = "metadata_latest.json".data := by
    rw [← h2]
    show _ = ("metadata_".data ++ ('v' :: '_' :: rest.data)) ++ ".json".data
    simp
  have h4 : ('v' : Char) = 'l' :=
    congrArg (fun l : List Char => l.getD 9 ' ') h3
  exact absurd h4 (by decide)

/-- C4: a fault-free `save_model_and_metadata` returns the freshly
generated version, and reading back the latest-keyed metadata yields a
record whose `version` field equals that version, identical to the
version-keyed metadata written by the same call. -/
theorem C4_latest_pointer_freshness (st : Store) (model : RFModel)
    (metrics : List (String × Rat)) (config : TrainConfig) (now : Instant)
    (dir : String) :
    (save_model_and_metadata st model metrics config now dir none).result =
      .ok (modelVersion now,
        pathJoin dir ("model_" ++ modelVersion now ++ ".pkl"),
        pathJoin dir ("metadata_" ++ modelVersion now ++ ".json")) ∧
    (save_model_and_metadata st model metrics config now dir none).store.read
        (pathJoin dir "metadata_latest.json") =
      some (.metaJson (savedMetadata metrics config now dir)) ∧
    (savedMetadata metrics config now dir).version = modelVersion now ∧
    (save_model_and_metadata st model metrics config now dir none).store.read
        (pathJoin dir ("metadata_" ++ modelVersion now ++ ".json")) =
      some (.metaJson (savedMetadata metrics config now dir)) := by
  have hne : pathJoin dir ("metadata_" ++ modelVersion now ++ ".json") ≠
      pathJoin dir "metadata_latest.json" :=
    meta_version_path_ne_latest dir (strftimeYmdHMS now.dt)
  have hbeq : (pathJoin dir ("metadata_" ++ modelVersion now ++ ".json") ==
      pathJoin dir "metadata_latest.json") = false :=
    beq_eq_false_iff_ne.mpr hne
  refine ⟨?_, ?_, rfl, ?_⟩
  · simp [save_model_and_metadata, saveWrites, runWrites, Store.write]
  · simp [save_model_and_metadata, saveWrites, runWrites, Store.write,
      Store.read, List.lookup]
  · simp [save_model_and_metadata, saveWrites, runWrites, Store.write,
      Store.read, List.lookup, hbeq]

/-- All writes applied in order, no fault. -/
def applyAll (st : Store) (ws : List (String × FileData)) : Store :=
  ws.foldl (fun s pd => s.write pd.1 pd.2) st

theorem runWrites_none (st : Store) (ws : List (String × FileData)) :
    runWrites st ws none = (applyAll st ws, none) := by
  induction ws generalizing st with
  | nil => rfl
  | cons pd ws ih =>
    rcases pd with ⟨p, d⟩
    simp only [runWrites, applyAll, List.foldl_cons]
    exact ih (st.write p d)

theorem runWrites_fail (st : Store) (ws : List (String × FileData)) (k : Nat)
    (hk : k < ws.length) :
    runWrites st ws (some k) =
      (applyAll st (ws.take k), some (ws.get ⟨k, hk⟩).1) := by
  induction ws generalizing st k with
  | nil => simp at hk
  | cons pd ws ih =>
    rcases pd with ⟨p, d⟩
    cases k with
    | zero => rfl
    | succ k =>
      simp only [List.length_cons, Nat.succ_lt_succ_iff] at hk
      simp only [runWrites, List.take_succ_cons, applyAll, List.foldl_cons]
      exact ih (st.write p d) k hk

theorem pathJoin_inj (dir a b : String) (h : pathJoin dir a = pathJoin dir b) :
    a = b := by
  have hd : (dir ++ "/").data ++ a.data = (dir ++ "/").data ++ b.data :=
    congrArg String.data h
  exact string_ext a b (List.append_cancel_left hd)

theorem model_latest_ne_meta_version (dir rest : String) :
    pathJoin dir "model_latest.pkl" ≠
      pathJoin dir ("metadata_" ++ ("v_" ++ rest) ++ ".json") := by
  intro h
  have h2 := pathJoin_inj dir _ _ h
  have h4 : ('o' : Char) = 'e' :=
    congrArg (fun s : String => s.data.getD 1 ' ') h2
  exact absurd h4 (by decide)

theorem model_latest_ne_meta_latest (dir : String) :
    pathJoin dir "model_latest.pkl" ≠ pathJoin dir "metadata_latest.json" := by
  intro h
  exact absurd (pathJoin_inj dir _ _ h) (by decide)

/-! Fixtures for the persist counterexample -/

def oldMeta : Metadata :=
  { version := "v_20230101_000000"
    training_date := "2023-01-01T00:00:00"
    model_type := "RandomForestClassifier"
    metrics := [("accuracy", 9/10)]
    parameters := []
    features := []
    target := "target"
    model_path := "models/saved_models/model_v_20230101_000000.pkl" }

def oldRF : RFModel :=
  { params := [("random_state", 42)], seedUsed := 42, trainX := [], trainY := [] }

def newRF : RFModel :=
  { params := [("n_estimators", 100), ("max_depth", 10), ("random_state", 42)]
    seedUsed := 42, trainX := [[1]], trainY := [1] }

/-- A store already holding a full latest pair from an earlier run. -/
def storePre : Store :=
  [(pathJoin "models/saved_models" "model_latest.pkl", .modelBlob oldRF),
   (pathJoin "models/saved_models" "metadata_latest.json", .metaJson oldMeta)]

def nowSave : Instant := ⟨⟨2024, 6, 1, 12, 0, 0⟩, 0⟩

def cfgSave : TrainConfig :=
  { model_params := some [("n_estimators", 100), ("max_depth", 10), ("random_state", 42)]
    features := some ["feature1"]
    target := some "target" }

/-- C2 counterexample: when the third write (version-keyed metadata)
fails, the operation fails with the underlying write error — there is no
`PersistError` wrapper in the source — and the latest-keyed slots are left
as a mixture: the latest artifact is already the new model while the
latest metadata is still the old record. -/
theorem C2_counterexample :
    (save_model_and_metadata storePre newRF [("accuracy", 1)] cfgSave nowSave
        "models/saved_models" (some 2)).result =
      .error (pathJoin "models/saved_models"
        ("metadata_" ++ modelVersion nowSave ++ ".json")) ∧
    (save_model_and_metadata storePre newRF [("accuracy", 1)] cfgSave nowSave
        "models/saved_models" (some 2)).store.read
      (pathJoin "models/saved_models" "model_latest.pkl") =
        some (.modelBlob newRF) ∧
    (save_model_and_metadata storePre newRF [("accuracy", 1)] cfgSave nowSave
        "models/saved_models" (some 2)).store.read
      (pathJoin "models/saved_models" "metadata_latest.json") =
        some (.metaJson oldMeta) ∧
    oldMeta ≠ savedMetadata [("accuracy", 1)] cfgSave nowSave "models/saved_models" := by
  refine ⟨rfl, rfl, rfl, by decide⟩

/-- C2 amended: the four writes are sequential and unprotected.  On a
fault-free run all four succeed and both latest-keyed slots expose the new
pair; when the k-th write fails, the underlying error propagates (no
`PersistError`) and exactly the writes before the failing one remain
applied — so a failure after the latest-keyed artifact write but before
the latest-keyed metadata write leaves the latest slots a mixture of the
new artifact and the old metadata. -/
theorem C2_persist_sequential (st : Store) (model : RFModel)
    (metrics : List (String × Rat)) (config : TrainConfig) (now : Instant)
    (dir : String) :
    ((save_model_and_metadata st model metrics config now dir none).result =
        .ok (modelVersion now,
          pathJoin dir ("model_" ++ modelVersion now ++ ".pkl"),
          pathJoin dir ("metadata_" ++ modelVersion now ++ ".json")) ∧
      (save_model_and_metadata st model metrics config now dir none).store.read
          (pathJoin dir "model_latest.pkl") = some (.modelBlob model) ∧
      (save_model_and_metadata st model metrics config now dir none).store.read
          (pathJoin dir "metadata_latest.json") =
        some (.metaJson (savedMetadata metrics config now dir))) ∧
    (∀ k (hk : k < (saveWrites model metrics config now dir).length),
      (save_model_and_metadata st model metrics config now dir (some k)).store =
        applyAll st ((saveWrites model metrics config now dir).take k) ∧
      (save_model_and_metadata st model metrics config now dir (some k)).result =
        .error ((saveWrites model metrics config now dir).get ⟨k, hk⟩).1) := by
  have hbeq1 : (pathJoin dir "model_latest.pkl" ==
      pathJoin dir "metadata_latest.json") = false :=
    beq_eq_false_iff_ne.mpr (model_latest_ne_meta_latest dir)
  have hbeq2 : (pathJoin dir "model_latest.pkl" ==
      pathJoin dir ("metadata_" ++ modelVersion now ++ ".json")) = false :=
    beq_eq_false_iff_ne.mpr
      (model_latest_ne_meta_version dir (strftimeYmdHMS now.dt))
  refine ⟨⟨?_, ?_, ?_⟩, ?_⟩
  · simp [save_model_and_metadata, saveWrites, runWrites, Store.write]
  · simp [save_model_and_metadata, saveWrites, runWrites, Store.write,
      Store.read, List.lookup, hbeq1, hbeq2]
  · simp [save_model_and_metadata, saveWrites, runWrites, Store.write,
      Store.read, List.lookup]
  · intro k hk
    unfold save_model_and_metadata
    rw [runWrites_fail st _ k hk]
    exact ⟨rfl, rfl⟩

/-- Witness for C2: at the concrete fixtures, a failure on write 2 leaves
exactly the first two writes applied. -/
theorem C2_witness :
    (save_model_and_metadata storePre newRF [("accuracy", 1)] cfgSave nowSave
        "models/saved_models" (some 2)).store =
      applyAll storePre
        ((saveWrites newRF [("accuracy", 1)] cfgSave nowSave
          "models/saved_models").take 2) :=
  ((C2_persist_sequential storePre newRF [("accuracy", 1)] cfgSave nowSave
    "models/saved_models").2 2 (by decide)).1

def runInstant1 : Instant := ⟨⟨2024, 6, 1, 12, 0, 0⟩, 0⟩

/-- Same second as `runInstant1`, half a second later. -/
def runInstant2 : Instant := ⟨⟨2024, 6, 1, 12, 0, 0⟩, 500000⟩

def runInstant3 : Instant := ⟨⟨2024, 6, 1, 12, 0, 1⟩, 0⟩

/-- C8 counterexample: the version string is generated with
`strftime('%Y%m%d_%H%M%S')`, which has second granularity, so two
distinct training runs within the same second (distinct creation
instants) generate the same version string — uniqueness per training run
fails. -/
theorem C8_counterexample :
    runInstant1 ≠ runInstant2 ∧
    modelVersion runInstant1 = modelVersion runInstant2 :=
  ⟨by decide, rfl⟩

/-- C8 amended: every generated version has the format
`v_<YYYYMMDD_HHMMSS>` (eight digits, an underscore, six digits);
versions are lexicographically non-decreasing in creation time; and two
training runs generate the same version string exactly when their
creation times agree at second granularity — runs in distinct seconds get
distinct (and ordered) versions, runs within one second collide. -/
theorem C8_version_scheme :
    (∀ i : Instant, i.dt.Valid →
      ∃ d1 d2 : List Char,
        (modelVersion i).data = 'v' :: '_' :: (d1 ++ '_' :: d2) ∧
        d1.length = 8 ∧ d2.length = 6 ∧
        d1.all isDigitChar = true ∧ d2.all isDigitChar = true) ∧
    (∀ i j : Instant, i.dt.Valid → j.dt.Valid →
      DateTime.chronLE i.dt j.dt = true →
      strLexLe (modelVersion i) (modelVersion j) = true) ∧
    (∀ i j : Instant, i.dt.Valid → j.dt.Valid →
      (modelVersion i = modelVersion j ↔ i.dt = j.dt)) := by
  refine ⟨?_, ?_, ?_⟩
  · intro i hv
    obtain ⟨h1, h2, h3, h4, h5, h6, h7, h8⟩ := hv
    have b1 : i.dt.year < 10 ^ 4 := by norm_num; omega
    have b2 : i.dt.month < 10 ^ 2 := by norm_num; omega
    have b3 : i.dt.day < 10 ^ 2 := by norm_num; omega
    have b4 : i.dt.hour < 10 ^ 2 := by norm_num; omega
    have b5 : i.dt.minute < 10 ^ 2 := by norm_num; omega
    have b6 : i.dt.second < 10 ^ 2 := by norm_num; omega
    refine ⟨padNum 4 i.dt.year ++ (padNum 2 i.dt.month ++ padNum 2 i.dt.day),
      padNum 2 i.dt.hour ++ (padNum 2 i.dt.minute ++ padNum 2 i.dt.second),
      ?_, ?_, ?_, ?_, ?_⟩
    · show 'v' :: '_' :: (padNum 4 i.dt.year ++ (padNum 2 i.dt.month ++
        (padNum 2 i.dt.day ++ ('_' :: (padNum 2 i.dt.hour ++
        (padNum 2 i.dt.minute ++ padNum 2 i.dt.second)))))) = _
      simp [List.append_assoc]
    · simp [padNum_length]
    · simp [padNum_length]
    · simp only [List.all_append, Bool.and_eq_true]
      exact ⟨padNum_digits 4 _ b1, padNum_digits 2 _ b2, padNum_digits 2 _ b3⟩
    · simp only [List.all_append, Bool.and_eq_true]
      exact ⟨padNum_digits 2 _ b4, padNum_digits 2 _ b5, padNum_digits 2 _ b6⟩
  · intro i j hi hj hle
    show lexLe ('v' :: '_' :: (strftimeYmdHMS i.dt).data)
      ('v' :: '_' :: (strftimeYmdHMS j.dt).data) = true
    rw [lexLe_cons_same, lexLe_cons_same]
    exact strftime_mono i.dt j.dt hi hj hle
  · intro i j hi hj
    constructor
    · intro h
      have hd : 'v' :: '_' :: (strftimeYmdHMS i.dt).data =
          'v' :: '_' :: (strftimeYmdHMS j.dt).data := congrArg String.data h
      injection hd with _ hd1
      injection hd1 with _ hd2
      exact strftime_inj i.dt j.dt hi hj
        (string_ext (strftimeYmdHMS i.dt) (strftimeYmdHMS j.dt) hd2)
    · intro h
      unfold modelVersion
      rw [h]

/-- Witness for C8: concrete valid instants one second apart produce
lexicographically ordered versions. -/
theorem C8_witness :
    strLexLe (modelVersion runInstant1) (modelVersion runInstant3) = true :=
  C8_version_scheme.2.1 runInstant1 runInstant3 (by decide) (by decide) (by decide)
